import Mathlib

/-!
Verification development for the VOLK kernel `volk_32f_s32f_power_32f`
(file `kernels/volk/volk_32f_s32f_power_32f.h`).

Modelling choices.

Single-precision floats are represented by their 32-bit patterns, i.e.
natural numbers below `2 ^ 32`.  The platform-defined numeric routines
(`powf`, the lane function of the SIMD library's `powf4`, IEEE subtraction
and multiplication) are abstract fields of a `FloatOps` structure, since
their value-level behaviour is not part of this repository.  The operations
whose semantics are architecturally fixed are concrete: the IEEE ordered
`<` comparison performed by `_mm_cmplt_ps` (`ieeeLt32`), and the bitwise
register operations `_mm_and_ps`, `_mm_andnot_ps`, `_mm_or_ps`,
`_mm_blendv_ps` (which selects on bit 31 of each mask lane).

A 128-bit register is a list of four 32-bit lane patterns.  Each kernel
variant is embedded as a function from (ops, exponent pattern, input
memory `Nat → Nat`, `num_points`) to the ordered list of stores it
performs, each store being a pair (output index, value pattern).  The two
SIMD variants are embedded twice: once for the `LV_HAVE_LIB_SIMDMATH`
build (batch loop plus scalar tail) and once for the build without the
SIMD math library (scalar loop only), mirroring the preprocessor
conditionals in the source.
-/

/-- All-ones 32-bit pattern, the value of a true lane of `_mm_cmplt_ps`. -/
def ones32 : Nat := 2 ^ 32 - 1

/-- Bit pattern of the single-precision value `-0.0`. -/
def negZero32 : Nat := 2 ^ 31

/-- Sign bit of a binary32 pattern. -/
def sign32 (x : Nat) : Bool := x.testBit 31

/-- Biased exponent field of a binary32 pattern. -/
def exponent32 (x : Nat) : Nat := x / 2 ^ 23 % 2 ^ 8

/-- Fraction field of a binary32 pattern. -/
def fraction32 (x : Nat) : Nat := x % 2 ^ 23

/-- Whether a binary32 pattern encodes a NaN. -/
def isNaN32 (x : Nat) : Bool := exponent32 x == 255 && fraction32 x != 0

/-- Magnitude (pattern with the sign bit cleared) of a binary32 pattern.
For non-NaN patterns of equal sign, the IEEE order agrees with the order
of this field. -/
def magnitude32 (x : Nat) : Nat := x % 2 ^ 31

/-- IEEE-754 ordered `<` on binary32 bit patterns: false whenever either
operand is NaN, `-0.0 < +0.0` is false, otherwise sign-magnitude order.
This is the per-lane semantics of `_mm_cmplt_ps`. -/
def ieeeLt32 (a b : Nat) : Bool :=
  if isNaN32 a || isNaN32 b then false
  else if magnitude32 a == 0 && magnitude32 b == 0 then false
  else
    match sign32 a, sign32 b with
    | true, true => decide (magnitude32 b < magnitude32 a)
    | true, false => true
    | false, true => false
    | false, false => decide (magnitude32 a < magnitude32 b)

/-- The platform-defined numeric routines, at bit-pattern level: `pow` is
the scalar `powf`, `pow4` is the per-lane function of the SIMD library's
`powf4`, `fsub` and `fmul` are the per-lane functions of `_mm_sub_ps` and
`_mm_mul_ps`, and `one` and `negOne` are the patterns of `1.0f` and
`-1.0f` produced by `_mm_set_ps1(1)` and passed to `powf(-1, power)`. -/
structure FloatOps where
  pow : Nat → Nat → Nat
  pow4 : Nat → Nat → Nat
  fsub : Nat → Nat → Nat
  fmul : Nat → Nat → Nat
  one : Nat
  negOne : Nat

/-- Well-formedness: every routine returns a 32-bit pattern and the
constants are 32-bit patterns. -/
structure FloatOps.Wf (ops : FloatOps) : Prop where
  pow_lt : ∀ x y, ops.pow x y < 2 ^ 32
  pow4_lt : ∀ x y, ops.pow4 x y < 2 ^ 32
  fsub_lt : ∀ x y, ops.fsub x y < 2 ^ 32
  fmul_lt : ∀ x y, ops.fmul x y < 2 ^ 32
  one_lt : ops.one < 2 ^ 32
  negOne_lt : ops.negOne < 2 ^ 32

/-- Three-list pointwise zip, used for `_mm_blendv_ps`. -/
def zip3With (f : Nat → Nat → Nat → Nat) : List Nat → List Nat → List Nat → List Nat
  | x :: xs, y :: ys, z :: zs => f x y z :: zip3With f xs ys zs
  | _, _, _ => []

/-- `_mm_load_ps`: load four consecutive lanes starting at index `p`. -/
def mm_load_ps (a : Nat → Nat) (p : Nat) : List Nat :=
  [a p, a (p + 1), a (p + 2), a (p + 3)]

/-- `_mm_set_ps1`: broadcast one pattern to all four lanes. -/
def mm_set_ps1 (x : Nat) : List Nat := [x, x, x, x]

/-- `_mm_setzero_ps`: the all-zero register. -/
def mm_setzero_ps : List Nat := [0, 0, 0, 0]

/-- `_mm_cmplt_ps`: per lane, all-ones if IEEE `<` holds, else all-zeros. -/
def mm_cmplt_ps (x y : List Nat) : List Nat :=
  List.zipWith (fun u v => if ieeeLt32 u v then ones32 else 0) x y

/-- `_mm_sub_ps`: per-lane IEEE subtraction. -/
def mm_sub_ps (ops : FloatOps) (x y : List Nat) : List Nat :=
  List.zipWith ops.fsub x y

/-- `_mm_mul_ps`: per-lane IEEE multiplication. -/
def mm_mul_ps (ops : FloatOps) (x y : List Nat) : List Nat :=
  List.zipWith ops.fmul x y

/-- `_mm_and_ps`: per-lane bitwise and. -/
def mm_and_ps (x y : List Nat) : List Nat :=
  List.zipWith (fun u v => u &&& v) x y

/-- `_mm_andnot_ps`: per-lane bitwise and of the complement of the first
operand with the second. -/
def mm_andnot_ps (x y : List Nat) : List Nat :=
  List.zipWith (fun u v => (u ^^^ ones32) &&& v) x y

/-- `_mm_or_ps`: per-lane bitwise or. -/
def mm_or_ps (x y : List Nat) : List Nat :=
  List.zipWith (fun u v => u ||| v) x y

/-- `_mm_blendv_ps x y m`: per lane, `y` where bit 31 of the mask lane is
set, `x` where it is clear. -/
def mm_blendv_ps (x y m : List Nat) : List Nat :=
  zip3With (fun u v w => if w.testBit 31 then v else u) x y m

/-- The SIMD library's `powf4`, applied lane-wise. -/
def powf4 (ops : FloatOps) (x y : List Nat) : List Nat :=
  List.zipWith ops.pow4 x y

/-- `_mm_store_ps`: store the four lanes at consecutive output indices
starting at `p`. -/
def mm_store_ps (p : Nat) (v : List Nat) : List (Nat × Nat) :=
  v.enum.map (fun q => (p + q.1, q.2))

/-- The scalar loop `for (; number < stop; number++) *cPtr++ = powf(*aPtr++, power);`
shared by the generic variant and the SIMD tails, as a list of stores. -/
def scalarLoop (ops : FloatOps) (power : Nat) (a : Nat → Nat) (number stop : Nat) :
    List (Nat × Nat) :=
  if _h : number < stop then
    (number, ops.pow (a number) power) :: scalarLoop ops power a (number + 1) stop
  else []
termination_by stop - number

/-- One batch loop `for (; number < stop; number++)` over a step producing
the stores of batch `number`. -/
def batchLoop (step : Nat → List (Nat × Nat)) (number stop : Nat) : List (Nat × Nat) :=
  if _h : number < stop then step number ++ batchLoop step (number + 1) stop
  else []
termination_by stop - number

/-- Body of one SSE4.1 batch iteration: load, sign mask, negate, blend,
`powf4`, correction blend, multiply, store. -/
def sse41BatchStep (ops : FloatOps) (power : Nat) (a : Nat → Nat) (number : Nat) :
    List (Nat × Nat) :=
  let vPower := mm_set_ps1 power
  let zeroValue := mm_setzero_ps
  let negativeOneToPower := mm_set_ps1 (ops.pow ops.negOne power)
  let onesMask := mm_set_ps1 ops.one
  let aPtr := 4 * number
  let aVal := mm_load_ps a aPtr
  let signMask := mm_cmplt_ps aVal zeroValue
  let negatedValues := mm_sub_ps ops zeroValue aVal
  let aVal2 := mm_blendv_ps aVal negatedValues signMask
  let cVal := powf4 ops aVal2 vPower
  let cVal2 := mm_mul_ps ops (mm_blendv_ps onesMask negativeOneToPower signMask) cVal
  mm_store_ps aPtr cVal2

/-- Body of one SSE batch iteration: as `sse41BatchStep` but both lane
selections are done with `_mm_or_ps`/`_mm_andnot_ps`/`_mm_and_ps`. -/
def sseBatchStep (ops : FloatOps) (power : Nat) (a : Nat → Nat) (number : Nat) :
    List (Nat × Nat) :=
  let vPower := mm_set_ps1 power
  let zeroValue := mm_setzero_ps
  let negativeOneToPower := mm_set_ps1 (ops.pow ops.negOne power)
  let onesMask := mm_set_ps1 ops.one
  let aPtr := 4 * number
  let aVal := mm_load_ps a aPtr
  let signMask := mm_cmplt_ps aVal zeroValue
  let negatedValues := mm_sub_ps ops zeroValue aVal
  let aVal2 := mm_or_ps (mm_andnot_ps signMask aVal) (mm_and_ps signMask negatedValues)
  let cVal := powf4 ops aVal2 vPower
  let cVal2 := mm_mul_ps ops
    (mm_or_ps (mm_andnot_ps signMask onesMask) (mm_and_ps signMask negativeOneToPower))
    cVal
  mm_store_ps aPtr cVal2

/-- `volk_32f_s32f_power_32f_a_sse4_1` with `LV_HAVE_LIB_SIMDMATH`:
`num_points / 4` full batches, then the scalar tail from
`quarterPoints * 4` to `num_points`. -/
def volk_32f_s32f_power_32f_a_sse4_1 (ops : FloatOps) (power : Nat) (a : Nat → Nat)
    (num_points : Nat) : List (Nat × Nat) :=
  let quarterPoints := num_points / 4
  batchLoop (sse41BatchStep ops power a) 0 quarterPoints ++
    scalarLoop ops power a (quarterPoints * 4) num_points

/-- `volk_32f_s32f_power_32f_a_sse` with `LV_HAVE_LIB_SIMDMATH`. -/
def volk_32f_s32f_power_32f_a_sse (ops : FloatOps) (power : Nat) (a : Nat → Nat)
    (num_points : Nat) : List (Nat × Nat) :=
  let quarterPoints := num_points / 4
  batchLoop (sseBatchStep ops power a) 0 quarterPoints ++
    scalarLoop ops power a (quarterPoints * 4) num_points

/-- `volk_32f_s32f_power_32f_generic`: the scalar loop over all indices. -/
def volk_32f_s32f_power_32f_generic (ops : FloatOps) (power : Nat) (a : Nat → Nat)
    (num_points : Nat) : List (Nat × Nat) :=
  scalarLoop ops power a 0 num_points

/-- `volk_32f_s32f_power_32f_a_sse4_1` compiled without
`LV_HAVE_LIB_SIMDMATH`: only the scalar loop, starting at `number = 0`. -/
def volk_32f_s32f_power_32f_a_sse4_1_nolib (ops : FloatOps) (power : Nat) (a : Nat → Nat)
    (num_points : Nat) : List (Nat × Nat) :=
  scalarLoop ops power a 0 num_points

/-- `volk_32f_s32f_power_32f_a_sse` compiled without
`LV_HAVE_LIB_SIMDMATH`: only the scalar loop, starting at `number = 0`. -/
def volk_32f_s32f_power_32f_a_sse_nolib (ops : FloatOps) (power : Nat) (a : Nat → Nat)
    (num_points : Nat) : List (Nat × Nat) :=
  scalarLoop ops power a 0 num_points

/-- Whether a lane pattern is classified negative by the kernels:
IEEE `<` against `+0.0`. -/
def laneSign (x : Nat) : Bool := ieeeLt32 x 0

/-- Specification of the per-lane correction factor of the SIMD batch
path: the pattern of `powf(-1, power)` on negative lanes, the pattern of
`1.0f` elsewhere.  Depends only on the exponent and the lane's sign. -/
def laneCorrection (ops : FloatOps) (power x : Nat) : Nat :=
  if laneSign x then ops.pow ops.negOne power else ops.one

/-- Specification of the base handed to `powf4`: the lane negated through
`0 - x` on negative lanes, the lane unchanged elsewhere. -/
def laneBase (ops : FloatOps) (x : Nat) : Nat :=
  if laneSign x then ops.fsub 0 x else x

/-- Specification of one output lane of the SIMD batch path. -/
def laneResult (ops : FloatOps) (power x : Nat) : Nat :=
  ops.fmul (laneCorrection ops power x) (ops.pow4 (laneBase ops x) power)

/-- A concrete well-formed instance of the abstract numeric routines,
used to instantiate the universally quantified theorems on closed
inputs. -/
def testOps : FloatOps where
  pow := fun x y => (x + y) % 2 ^ 32
  pow4 := fun x y => (x * y + 1) % 2 ^ 32
  fsub := fun x y => (x + (2 ^ 32 - y % 2 ^ 32)) % 2 ^ 32
  fmul := fun x y => x * y % 2 ^ 32
  one := 0x3F800000
  negOne := 0xBF800000

/-- A concrete input memory for witness instantiations. -/
def testMem (i : Nat) : Nat := (i + 2) % 2 ^ 32

/-! Helper lemmas about the bitwise lane selections. -/

/-- Bitwise and with the all-ones 32-bit mask is the identity on 32-bit
patterns. -/
theorem and_ones32 (x : Nat) (hx : x < 2 ^ 32) : ones32 &&& x = x := by
  apply Nat.eq_of_testBit_eq
  intro i
  rw [Nat.testBit_and]
  unfold ones32
  rw [Nat.testBit_two_pow_sub_one]
  by_cases hi : i < 32
  · simp [hi]
  · have hxi : x.testBit i = false :=
      Nat.testBit_lt_two_pow
        (lt_of_lt_of_le hx (Nat.pow_le_pow_right (by norm_num) (Nat.le_of_not_lt hi)))
    simp [hi, hxi]

/-- Bit 31 of the all-ones mask is set. -/
theorem testBit31_ones32 : Nat.testBit ones32 31 = true := by decide

/-- One lane of `_mm_blendv_ps` applied to a comparison mask selects by the
comparison outcome. -/
theorem blendv_lane (u v : Nat) (b : Bool) :
    (if (if b then ones32 else 0).testBit 31 then v else u) = if b then v else u := by
  cases b <;> simp [testBit31_ones32]

/-- One lane of the `_mm_or_ps`/`_mm_andnot_ps`/`_mm_and_ps` selection
applied to a comparison mask selects by the comparison outcome, on 32-bit
patterns. -/
theorem sseSel_lane (u v : Nat) (b : Bool) (hu : u < 2 ^ 32) (hv : v < 2 ^ 32) :
    ((((if b then ones32 else 0) ^^^ ones32) &&& u) ||| ((if b then ones32 else 0) &&& v)) =
      if b then v else u := by
  cases b
  · simpa using and_ones32 u hu
  · simpa using and_ones32 v hv

/-- `List.range'` over four indices, computed. -/
theorem range'_four (s : Nat) : List.range' s 4 = [s, s + 1, s + 2, s + 3] := rfl

/-- The SSE4.1 batch body stores, at the four indices of batch `k`, exactly
the per-lane specification `laneResult`. -/
theorem sse41BatchStep_eq (ops : FloatOps) (power : Nat) (a : Nat → Nat) (k : Nat) :
    sse41BatchStep ops power a k =
      (List.range' (4 * k) 4).map (fun i => (i, laneResult ops power (a i))) := by
  simp [sse41BatchStep, mm_set_ps1, mm_setzero_ps, mm_load_ps, mm_cmplt_ps, mm_sub_ps,
    mm_blendv_ps, powf4, mm_mul_ps, mm_store_ps, List.enum, zip3With, blendv_lane,
    laneResult, laneCorrection, laneBase, laneSign, range'_four]

/-- The SSE batch body stores, at the four indices of batch `k`, exactly
the per-lane specification `laneResult`, provided all patterns are
32-bit. -/
theorem sseBatchStep_eq (ops : FloatOps) (wf : ops.Wf) (power : Nat) (a : Nat → Nat)
    (ha : ∀ i, a i < 2 ^ 32) (k : Nat) :
    sseBatchStep ops power a k =
      (List.range' (4 * k) 4).map (fun i => (i, laneResult ops power (a i))) := by
  have hval : ∀ (p : Nat) (b : Bool), ((((if b then ones32 else 0) ^^^ ones32) &&& a p) |||
      ((if b then ones32 else 0) &&& ops.fsub 0 (a p))) =
        if b then ops.fsub 0 (a p) else a p :=
    fun p b => sseSel_lane _ _ _ (ha p) (wf.fsub_lt _ _)
  have hcorr : ∀ (b : Bool), ((((if b then ones32 else 0) ^^^ ones32) &&& ops.one) |||
      ((if b then ones32 else 0) &&& ops.pow ops.negOne power)) =
        if b then ops.pow ops.negOne power else ops.one :=
    fun b => sseSel_lane _ _ _ wf.one_lt (wf.pow_lt _ _)
  simp [sseBatchStep, mm_set_ps1, mm_setzero_ps, mm_load_ps, mm_cmplt_ps, mm_sub_ps,
    mm_or_ps, mm_and_ps, mm_andnot_ps, powf4, mm_mul_ps, mm_store_ps, List.enum, hval, hcorr,
    laneResult, laneCorrection, laneBase, laneSign, range'_four]

/-- The scalar loop from `s` to `s + n` stores `powf(input[i], power)` at
each index `i` of `[s, s + n)`, in order. -/
theorem scalarLoop_shift (ops : FloatOps) (power : Nat) (a : Nat → Nat) :
    ∀ n s, scalarLoop ops power a s (s + n) =
      (List.range' s n).map (fun i => (i, ops.pow (a i) power)) := by
  intro n
  induction n with
  | zero =>
    intro s
    rw [scalarLoop, dif_neg (by omega)]
    simp
  | succ n ih =>
    intro s
    rw [scalarLoop, dif_pos (by omega : s < s + (n + 1))]
    have h1 : s + (n + 1) = (s + 1) + n := by omega
    rw [h1, ih (s + 1), List.range'_succ]
    simp

/-- The scalar loop from `number` to `stop` stores `powf(input[i], power)`
at each index `i` of `[number, stop)`, in order. -/
theorem scalarLoop_eq (ops : FloatOps) (power : Nat) (a : Nat → Nat) (s stop : Nat) :
    scalarLoop ops power a s stop =
      (List.range' s (stop - s)).map (fun i => (i, ops.pow (a i) power)) := by
  rcases le_or_lt s stop with h | h
  · obtain ⟨n, rfl⟩ : ∃ n, stop = s + n := ⟨stop - s, by omega⟩
    rw [scalarLoop_shift, Nat.add_sub_cancel_left]
  · rw [scalarLoop, dif_neg (by omega)]
    have h0 : stop - s = 0 := by omega
    rw [h0]
    simp

/-- A batch loop whose step stores at the four indices of each batch,
run from `s` to `s + n`, stores at every index of `[4*s, 4*(s+n))` in
order. -/
theorem batchLoop_shift (f : Nat → Nat × Nat) :
    ∀ n s, batchLoop (fun k => (List.range' (4 * k) 4).map f) s (s + n) =
      (List.range' (4 * s) (4 * n)).map f := by
  intro n
  induction n with
  | zero =>
    intro s
    rw [batchLoop, dif_neg (by omega)]
    simp
  | succ n ih =>
    intro s
    rw [batchLoop, dif_pos (by omega : s < s + (n + 1))]
    have h1 : s + (n + 1) = (s + 1) + n := by omega
    rw [h1, ih (s + 1)]
    have h2 : 4 * (s + 1) = 4 * s + 4 := by ring
    rw [h2, ← List.map_append, List.range'_append_1]
    have h3 : 4 * n + 4 = 4 * (n + 1) := by ring
    rw [h3]

/-- Two batch loops with steps that agree below `stop` are equal. -/
theorem batchLoop_congr (step step' : Nat → List (Nat × Nat)) (stop : Nat)
    (h : ∀ k, k < stop → step k = step' k) :
    ∀ n s, stop ≤ s + n → batchLoop step s stop = batchLoop step' s stop := by
  intro n
  induction n with
  | zero =>
    intro s hs
    conv_lhs => rw [batchLoop]
    conv_rhs => rw [batchLoop]
    rw [dif_neg (by omega), dif_neg (by omega)]
  | succ n ih =>
    intro s hs
    rcases Nat.lt_or_ge s stop with hlt | hge
    · conv_lhs => rw [batchLoop]
      conv_rhs => rw [batchLoop]
      rw [dif_pos hlt, dif_pos hlt, h s hlt, ih (s + 1) (by omega)]
    · conv_lhs => rw [batchLoop]
      conv_rhs => rw [batchLoop]
      rw [dif_neg (by omega), dif_neg (by omega)]

/-- The SSE4.1 variant, in closed form: lane results on the batch prefix,
scalar results on the tail. -/
theorem sse41_canonical (ops : FloatOps) (power : Nat) (a : Nat → Nat) (n : Nat) :
    volk_32f_s32f_power_32f_a_sse4_1 ops power a n =
      (List.range' 0 (4 * (n / 4))).map (fun i => (i, laneResult ops power (a i))) ++
      (List.range' (n / 4 * 4) (n - n / 4 * 4)).map (fun i => (i, ops.pow (a i) power)) := by
  simp only [volk_32f_s32f_power_32f_a_sse4_1]
  rw [scalarLoop_eq]
  have he : sse41BatchStep ops power a =
      fun k => (List.range' (4 * k) 4).map (fun i => (i, laneResult ops power (a i))) :=
    funext (sse41BatchStep_eq ops power a)
  rw [he]
  have hb := batchLoop_shift (fun i => (i, laneResult ops power (a i))) (n / 4) 0
  simpa using hb

/-- The SSE variant, in closed form, for 32-bit inputs and well-formed
routines. -/
theorem sse_canonical (ops : FloatOps) (wf : ops.Wf) (power : Nat) (a : Nat → Nat)
    (ha : ∀ i, a i < 2 ^ 32) (n : Nat) :
    volk_32f_s32f_power_32f_a_sse ops power a n =
      (List.range' 0 (4 * (n / 4))).map (fun i => (i, laneResult ops power (a i))) ++
      (List.range' (n / 4 * 4) (n - n / 4 * 4)).map (fun i => (i, ops.pow (a i) power)) := by
  simp only [volk_32f_s32f_power_32f_a_sse]
  rw [scalarLoop_eq]
  have he : sseBatchStep ops power a =
      fun k => (List.range' (4 * k) 4).map (fun i => (i, laneResult ops power (a i))) :=
    funext (sseBatchStep_eq ops wf power a ha)
  rw [he]
  have hb := batchLoop_shift (fun i => (i, laneResult ops power (a i))) (n / 4) 0
  simpa using hb

/-- The generic variant, in closed form. -/
theorem generic_canonical (ops : FloatOps) (power : Nat) (a : Nat → Nat) (n : Nat) :
    volk_32f_s32f_power_32f_generic ops power a n =
      (List.range n).map (fun i => (i, ops.pow (a i) power)) := by
  unfold volk_32f_s32f_power_32f_generic
  rw [scalarLoop_eq, List.range_eq_range']
  simp

/-- Tagging each index with a value and projecting the index back is the
identity. -/
theorem map_fst_tag (l : List Nat) (g : Nat → Nat) :
    (l.map (fun i => (i, g i))).map Prod.fst = l := by
  rw [List.map_map]
  have hcomp : (Prod.fst ∘ fun i : Nat => (i, g i)) = id := rfl
  rw [hcomp, List.map_id]

/-- The batch-prefix indices followed by the tail indices are exactly
`0, ..., n - 1`. -/
theorem range'_join_div (n : Nat) :
    List.range' 0 (4 * (n / 4)) ++ List.range' (n / 4 * 4) (n - n / 4 * 4) =
      List.range n := by
  rw [(by omega : n / 4 * 4 = 0 + 4 * (n / 4)), List.range'_append_1,
    List.range_eq_range', List.range'_inj]
  omega

/-- The generic variant stores at exactly the indices `0, ..., n - 1`, in
order. -/
theorem generic_writes_fst (ops : FloatOps) (power : Nat) (a : Nat → Nat) (n : Nat) :
    (volk_32f_s32f_power_32f_generic ops power a n).map Prod.fst = List.range n := by
  rw [generic_canonical, map_fst_tag]

/-- The SSE4.1 variant stores at exactly the indices `0, ..., n - 1`, in
order. -/
theorem sse41_writes_fst (ops : FloatOps) (power : Nat) (a : Nat → Nat) (n : Nat) :
    (volk_32f_s32f_power_32f_a_sse4_1 ops power a n).map Prod.fst = List.range n := by
  rw [sse41_canonical, List.map_append, map_fst_tag, map_fst_tag, range'_join_div]

/-- The SSE variant stores at exactly the indices `0, ..., n - 1`, in
order. -/
theorem sse_writes_fst (ops : FloatOps) (wf : ops.Wf) (power : Nat) (a : Nat → Nat)
    (ha : ∀ i, a i < 2 ^ 32) (n : Nat) :
    (volk_32f_s32f_power_32f_a_sse ops power a n).map Prod.fst = List.range n := by
  rw [sse_canonical ops wf power a ha, List.map_append, map_fst_tag, map_fst_tag,
    range'_join_div]

/-- The scalar loop reads the input only at the indices it covers. -/
theorem scalarLoop_ext (ops : FloatOps) (power : Nat) (a a' : Nat → Nat) (s stop : Nat)
    (h : ∀ i, s ≤ i → i < stop → a i = a' i) :
    scalarLoop ops power a s stop = scalarLoop ops power a' s stop := by
  rw [scalarLoop_eq, scalarLoop_eq]
  apply List.map_congr_left
  intro i hi
  rw [List.mem_range'] at hi
  obtain ⟨j, hj, rfl⟩ := hi
  rw [h _ (by omega) (by omega)]

/-- The SSE4.1 batch body reads the input only at its four lane indices. -/
theorem sse41BatchStep_ext (ops : FloatOps) (power : Nat) (a a' : Nat → Nat) (k : Nat)
    (h0 : a (4 * k) = a' (4 * k)) (h1 : a (4 * k + 1) = a' (4 * k + 1))
    (h2 : a (4 * k + 2) = a' (4 * k + 2)) (h3 : a (4 * k + 3) = a' (4 * k + 3)) :
    sse41BatchStep ops power a k = sse41BatchStep ops power a' k := by
  simp only [sse41BatchStep, mm_load_ps, h0, h1, h2, h3]

/-- The SSE batch body reads the input only at its four lane indices. -/
theorem sseBatchStep_ext (ops : FloatOps) (power : Nat) (a a' : Nat → Nat) (k : Nat)
    (h0 : a (4 * k) = a' (4 * k)) (h1 : a (4 * k + 1) = a' (4 * k + 1))
    (h2 : a (4 * k + 2) = a' (4 * k + 2)) (h3 : a (4 * k + 3) = a' (4 * k + 3)) :
    sseBatchStep ops power a k = sseBatchStep ops power a' k := by
  simp only [sseBatchStep, mm_load_ps, h0, h1, h2, h3]

/-- The generic variant reads the input only below `n`. -/
theorem generic_ext (ops : FloatOps) (power : Nat) (a a' : Nat → Nat) (n : Nat)
    (h : ∀ i, i < n → a i = a' i) :
    volk_32f_s32f_power_32f_generic ops power a n =
      volk_32f_s32f_power_32f_generic ops power a' n := by
  unfold volk_32f_s32f_power_32f_generic
  exact scalarLoop_ext ops power a a' 0 n (fun i _ hi => h i hi)

/-- The SSE4.1 variant reads the input only below `n`. -/
theorem sse41_ext (ops : FloatOps) (power : Nat) (a a' : Nat → Nat) (n : Nat)
    (h : ∀ i, i < n → a i = a' i) :
    volk_32f_s32f_power_32f_a_sse4_1 ops power a n =
      volk_32f_s32f_power_32f_a_sse4_1 ops power a' n := by
  simp only [volk_32f_s32f_power_32f_a_sse4_1]
  congr 1
  · exact batchLoop_congr _ _ (n / 4)
      (fun k hk => sse41BatchStep_ext ops power a a' k
        (h _ (by omega)) (h _ (by omega)) (h _ (by omega)) (h _ (by omega)))
      (n / 4) 0 (by omega)
  · exact scalarLoop_ext ops power a a' (n / 4 * 4) n (fun i _ hi => h i hi)

/-- The SSE variant reads the input only below `n`. -/
theorem sse_ext (ops : FloatOps) (power : Nat) (a a' : Nat → Nat) (n : Nat)
    (h : ∀ i, i < n → a i = a' i) :
    volk_32f_s32f_power_32f_a_sse ops power a n =
      volk_32f_s32f_power_32f_a_sse ops power a' n := by
  simp only [volk_32f_s32f_power_32f_a_sse]
  congr 1
  · exact batchLoop_congr _ _ (n / 4)
      (fun k hk => sseBatchStep_ext ops power a a' k
        (h _ (by omega)) (h _ (by omega)) (h _ (by omega)) (h _ (by omega)))
      (n / 4) 0 (by omega)
  · exact scalarLoop_ext ops power a a' (n / 4 * 4) n (fun i _ hi => h i hi)

/-- The classification of the negative-zero pattern by `_mm_cmplt_ps`
against `+0.0` is non-negative. -/
theorem ieeeLt32_negZero : ieeeLt32 negZero32 0 = false := by decide

/-- The negative-zero pattern carries the sign bit. -/
theorem sign32_negZero : sign32 negZero32 = true := by decide

/-- The concrete input memory is 32-bit bounded. -/
theorem testMem_lt : ∀ i, testMem i < 2 ^ 32 := fun _ => Nat.mod_lt _ (by norm_num)

/-- The concrete routines are well-formed. -/
theorem testOps_wf : testOps.Wf where
  pow_lt := fun _ _ => Nat.mod_lt _ (by norm_num)
  pow4_lt := fun _ _ => Nat.mod_lt _ (by norm_num)
  fsub_lt := fun _ _ => Nat.mod_lt _ (by norm_num)
  fmul_lt := fun _ _ => Nat.mod_lt _ (by norm_num)
  one_lt := by decide
  negOne_lt := by decide

/-- A second concrete input memory, agreeing with `testMem` below 5 and
differing from index 5 on, used to witness the read-framing theorems. -/
def testMem2 : Nat → Nat := fun i => if i < 5 then testMem i else 99

/-- A concrete input memory holding the `-0.0` pattern in every lane. -/
def negMem : Nat → Nat := fun _ => negZero32

/-- The negative-zero memory is 32-bit bounded. -/
theorem negMem_lt : ∀ i, negMem i < 2 ^ 32 := fun _ => by norm_num [negMem, negZero32]

/-! The claims. -/

/-- Claim C1: the generic variant, for every count and every index `i` in
`[0, count)`, stores `output[i] = powf(input[i], exponent)`, applying the
scalar real-power routine elementwise in index order `0..count`. -/
theorem claim_C1_generic_elementwise (ops : FloatOps) (power : Nat) (a : Nat → Nat)
    (n : Nat) :
    volk_32f_s32f_power_32f_generic ops power a n =
      (List.range n).map (fun i => (i, ops.pow (a i) power)) :=
  generic_canonical ops power a n

/-- Claim C3: each SIMD variant stores `floor(count/4)` full batches of 4
consecutive lane results, then the remaining `count mod 4` elements with
the scalar formula starting at index `4*floor(count/4)`; its store indices
are exactly `0, ..., count - 1`, each written exactly once, in order. -/
theorem claim_C3_simd_batches_and_tail (ops : FloatOps) (power : Nat) (a : Nat → Nat)
    (n : Nat) (wf : ops.Wf) (ha : ∀ i, a i < 2 ^ 32) :
    (volk_32f_s32f_power_32f_a_sse4_1 ops power a n =
        (List.range' 0 (4 * (n / 4))).map (fun i => (i, laneResult ops power (a i))) ++
          (List.range' (4 * (n / 4)) (n % 4)).map (fun i => (i, ops.pow (a i) power)) ∧
      (volk_32f_s32f_power_32f_a_sse4_1 ops power a n).map Prod.fst = List.range n) ∧
    (volk_32f_s32f_power_32f_a_sse ops power a n =
        (List.range' 0 (4 * (n / 4))).map (fun i => (i, laneResult ops power (a i))) ++
          (List.range' (4 * (n / 4)) (n % 4)).map (fun i => (i, ops.pow (a i) power)) ∧
      (volk_32f_s32f_power_32f_a_sse ops power a n).map Prod.fst = List.range n) := by
  have hm : n % 4 = n - n / 4 * 4 := by omega
  have hs : (4 : Nat) * (n / 4) = n / 4 * 4 := by ring
  refine ⟨⟨?_, sse41_writes_fst ops power a n⟩, ?_, sse_writes_fst ops wf power a ha n⟩
  · rw [sse41_canonical, hm, hs]
  · rw [sse_canonical ops wf power a ha, hm, hs]

/-- Witness for claim C3 at concrete input: routines `testOps`, exponent
pattern 7, memory `testMem`, count 6. -/
theorem claim_C3_simd_batches_and_tail_witness :
    testOps.Wf ∧ (∀ i, testMem i < 2 ^ 32) ∧
      (volk_32f_s32f_power_32f_a_sse4_1 testOps 7 testMem 6).map Prod.fst =
        List.range 6 :=
  ⟨testOps_wf, testMem_lt,
    (claim_C3_simd_batches_and_tail testOps 7 testMem 6 testOps_wf testMem_lt).1.2⟩

/-- Claim C4: in the SIMD batch path each lane result is the correction
factor times `powf4` of the sign-masked base, where the correction factor
is the `1.0f` pattern when the lane's sign mask (`input[i] < 0` under IEEE
comparison) is clear and `powf(-1, power)` — computed by the scalar
real-power routine and depending only on the exponent — when it is set. -/
theorem claim_C4_lane_correction (ops : FloatOps) (power : Nat) (a : Nat → Nat) (k : Nat)
    (wf : ops.Wf) (ha : ∀ i, a i < 2 ^ 32) :
    sse41BatchStep ops power a k =
      (List.range' (4 * k) 4).map (fun i =>
        (i, ops.fmul (if ieeeLt32 (a i) 0 then ops.pow ops.negOne power else ops.one)
          (ops.pow4 (if ieeeLt32 (a i) 0 then ops.fsub 0 (a i) else a i) power))) ∧
    sseBatchStep ops power a k =
      (List.range' (4 * k) 4).map (fun i =>
        (i, ops.fmul (if ieeeLt32 (a i) 0 then ops.pow ops.negOne power else ops.one)
          (ops.pow4 (if ieeeLt32 (a i) 0 then ops.fsub 0 (a i) else a i) power))) := by
  constructor
  · rw [sse41BatchStep_eq]
    simp [laneResult, laneCorrection, laneBase, laneSign]
  · rw [sseBatchStep_eq ops wf power a ha]
    simp [laneResult, laneCorrection, laneBase, laneSign]

/-- Witness for claim C4 at concrete input: batch 0 of memory `testMem`. -/
theorem claim_C4_lane_correction_witness :
    testOps.Wf ∧ (∀ i, testMem i < 2 ^ 32) ∧
      sse41BatchStep testOps 7 testMem 0 =
        (List.range' (4 * 0) 4).map (fun i =>
          (i, testOps.fmul
            (if ieeeLt32 (testMem i) 0 then testOps.pow testOps.negOne 7 else testOps.one)
            (testOps.pow4
              (if ieeeLt32 (testMem i) 0 then testOps.fsub 0 (testMem i) else testMem i)
              7))) :=
  ⟨testOps_wf, testMem_lt,
    (claim_C4_lane_correction testOps 7 testMem 0 testOps_wf testMem_lt).1⟩

/-- Claim C5: without the optional SIMD math library both SSE variants run
the scalar loop over all elements and are extensionally equal to the
generic variant. -/
theorem claim_C5_nolib_equals_generic (ops : FloatOps) (power : Nat) (a : Nat → Nat)
    (n : Nat) :
    volk_32f_s32f_power_32f_a_sse4_1_nolib ops power a n =
        volk_32f_s32f_power_32f_generic ops power a n ∧
      volk_32f_s32f_power_32f_a_sse_nolib ops power a n =
        volk_32f_s32f_power_32f_generic ops power a n :=
  ⟨rfl, rfl⟩

/-- Claim C6: every variant stores exactly at the indices `0, ..., count-1`
(no store outside `[0, count)`), and its stores depend only on the input
values at indices below `count` (no read outside `[0, count)`). -/
theorem claim_C6_no_out_of_bounds_access (ops : FloatOps) (power : Nat) (a : Nat → Nat)
    (n : Nat) (wf : ops.Wf) (ha : ∀ i, a i < 2 ^ 32) :
    ((volk_32f_s32f_power_32f_generic ops power a n).map Prod.fst = List.range n ∧
      (volk_32f_s32f_power_32f_a_sse4_1 ops power a n).map Prod.fst = List.range n ∧
      (volk_32f_s32f_power_32f_a_sse ops power a n).map Prod.fst = List.range n ∧
      (volk_32f_s32f_power_32f_a_sse4_1_nolib ops power a n).map Prod.fst = List.range n ∧
      (volk_32f_s32f_power_32f_a_sse_nolib ops power a n).map Prod.fst = List.range n) ∧
    ∀ a', (∀ i, i < n → a i = a' i) →
      volk_32f_s32f_power_32f_generic ops power a n =
          volk_32f_s32f_power_32f_generic ops power a' n ∧
        volk_32f_s32f_power_32f_a_sse4_1 ops power a n =
          volk_32f_s32f_power_32f_a_sse4_1 ops power a' n ∧
        volk_32f_s32f_power_32f_a_sse ops power a n =
          volk_32f_s32f_power_32f_a_sse ops power a' n ∧
        volk_32f_s32f_power_32f_a_sse4_1_nolib ops power a n =
          volk_32f_s32f_power_32f_a_sse4_1_nolib ops power a' n ∧
        volk_32f_s32f_power_32f_a_sse_nolib ops power a n =
          volk_32f_s32f_power_32f_a_sse_nolib ops power a' n := by
  refine ⟨⟨generic_writes_fst ops power a n, sse41_writes_fst ops power a n,
    sse_writes_fst ops wf power a ha n, generic_writes_fst ops power a n,
    generic_writes_fst ops power a n⟩, ?_⟩
  intro a' h
  exact ⟨generic_ext ops power a a' n h, sse41_ext ops power a a' n h,
    sse_ext ops power a a' n h, generic_ext ops power a a' n h,
    generic_ext ops power a a' n h⟩

/-- Witness for claim C6 at concrete input: count 6. -/
theorem claim_C6_no_out_of_bounds_access_witness :
    testOps.Wf ∧ (∀ i, testMem i < 2 ^ 32) ∧
      (volk_32f_s32f_power_32f_a_sse testOps 7 testMem 6).map Prod.fst = List.range 6 :=
  ⟨testOps_wf, testMem_lt,
    (claim_C6_no_out_of_bounds_access testOps 7 testMem 6 testOps_wf testMem_lt).1.2.2.1⟩

/-- Claim C7: for every variant, a call with count 0 performs no store at
all (and, the trace being independent of the memory, reads nothing). -/
theorem claim_C7_count_zero_noop (ops : FloatOps) (power : Nat) (a : Nat → Nat) :
    volk_32f_s32f_power_32f_generic ops power a 0 = [] ∧
      volk_32f_s32f_power_32f_a_sse4_1 ops power a 0 = [] ∧
      volk_32f_s32f_power_32f_a_sse ops power a 0 = [] ∧
      volk_32f_s32f_power_32f_a_sse4_1_nolib ops power a 0 = [] ∧
      volk_32f_s32f_power_32f_a_sse_nolib ops power a 0 = [] := by
  refine ⟨?_, ?_, ?_, ?_, ?_⟩ <;>
    simp [volk_32f_s32f_power_32f_generic, volk_32f_s32f_power_32f_a_sse4_1,
      volk_32f_s32f_power_32f_a_sse, volk_32f_s32f_power_32f_a_sse4_1_nolib,
      volk_32f_s32f_power_32f_a_sse_nolib, scalarLoop, batchLoop]

/-- Claim C8: on 32-bit patterns, the SSE variant and the SSE4.1 variant
store identical traces for every input, exponent and count: the
`_mm_or_ps`/`_mm_andnot_ps`/`_mm_and_ps` selection picks exactly the lanes
the `_mm_blendv_ps` blend picks. -/
theorem claim_C8_sse_equals_sse41 (ops : FloatOps) (power : Nat) (a : Nat → Nat)
    (n : Nat) (wf : ops.Wf) (ha : ∀ i, a i < 2 ^ 32) :
    volk_32f_s32f_power_32f_a_sse ops power a n =
      volk_32f_s32f_power_32f_a_sse4_1 ops power a n := by
  rw [sse_canonical ops wf power a ha, sse41_canonical]

/-- Witness for claim C8 at concrete input: count 6 (one batch, tail 2). -/
theorem claim_C8_sse_equals_sse41_witness :
    testOps.Wf ∧ (∀ i, testMem i < 2 ^ 32) ∧
      volk_32f_s32f_power_32f_a_sse testOps 7 testMem 6 =
        volk_32f_s32f_power_32f_a_sse4_1 testOps 7 testMem 6 :=
  ⟨testOps_wf, testMem_lt, claim_C8_sse_equals_sse41 testOps 7 testMem 6 testOps_wf testMem_lt⟩

/-- Claim C9: every variant is stateless and deterministic: its store
trace is a function of the routines, the exponent, the count and the input
values below the count alone. -/
theorem claim_C9_stateless_deterministic (ops : FloatOps) (power : Nat) (n : Nat)
    (a a' : Nat → Nat) (h : ∀ i, i < n → a i = a' i) :
    volk_32f_s32f_power_32f_generic ops power a n =
        volk_32f_s32f_power_32f_generic ops power a' n ∧
      volk_32f_s32f_power_32f_a_sse4_1 ops power a n =
        volk_32f_s32f_power_32f_a_sse4_1 ops power a' n ∧
      volk_32f_s32f_power_32f_a_sse ops power a n =
        volk_32f_s32f_power_32f_a_sse ops power a' n ∧
      volk_32f_s32f_power_32f_a_sse4_1_nolib ops power a n =
        volk_32f_s32f_power_32f_a_sse4_1_nolib ops power a' n ∧
      volk_32f_s32f_power_32f_a_sse_nolib ops power a n =
        volk_32f_s32f_power_32f_a_sse_nolib ops power a' n :=
  ⟨generic_ext ops power a a' n h, sse41_ext ops power a a' n h,
    sse_ext ops power a a' n h, generic_ext ops power a a' n h,
    generic_ext ops power a a' n h⟩

/-- Witness for claim C9: `testMem2` agrees with `testMem` below 5 and
differs from index 5 on, yet every variant stores the same trace. -/
theorem claim_C9_stateless_deterministic_witness :
    (∀ i, i < 5 → testMem i = testMem2 i) ∧
      volk_32f_s32f_power_32f_a_sse4_1 testOps 7 testMem 5 =
        volk_32f_s32f_power_32f_a_sse4_1 testOps 7 testMem2 5 :=
  ⟨fun i hi => by simp [testMem2, hi],
    (claim_C9_stateless_deterministic testOps 7 5 testMem testMem2
      (fun i hi => by simp [testMem2, hi])).2.1⟩

/-- Claim C10: the SIMD lanes are classified negative exactly by IEEE
strict comparison with zero, so a lane holding the `-0.0` pattern (sign
bit set) is classified non-negative: its sign mask is clear, it receives
correction factor `1.0f` and its base is handed to `powf4` unmodified, in
both SIMD variants. -/
theorem claim_C10_negative_zero_lane (ops : FloatOps) (power : Nat) (a : Nat → Nat)
    (k : Nat) (wf : ops.Wf) (ha : ∀ i, a i < 2 ^ 32) (hz : a (4 * k) = negZero32) :
    sign32 negZero32 = true ∧ ieeeLt32 negZero32 0 = false ∧
      (sse41BatchStep ops power a k).head? =
        some (4 * k, ops.fmul ops.one (ops.pow4 negZero32 power)) ∧
      (sseBatchStep ops power a k).head? =
        some (4 * k, ops.fmul ops.one (ops.pow4 negZero32 power)) := by
  refine ⟨sign32_negZero, ieeeLt32_negZero, ?_, ?_⟩
  · rw [sse41BatchStep_eq]
    simp [range'_four, laneResult, laneCorrection, laneBase, laneSign, hz, ieeeLt32_negZero]
  · rw [sseBatchStep_eq ops wf power a ha]
    simp [range'_four, laneResult, laneCorrection, laneBase, laneSign, hz, ieeeLt32_negZero]

/-- Witness for claim C10 at concrete input: every lane holds `-0.0`. -/
theorem claim_C10_negative_zero_lane_witness :
    testOps.Wf ∧ (∀ i, negMem i < 2 ^ 32) ∧ negMem (4 * 0) = negZero32 ∧
      (sse41BatchStep testOps 7 negMem 0).head? =
        some (4 * 0, testOps.fmul testOps.one (testOps.pow4 negZero32 7)) :=
  ⟨testOps_wf, negMem_lt, rfl,
    (claim_C10_negative_zero_lane testOps 7 negMem 0 testOps_wf negMem_lt rfl).2.2.1⟩
